import Mathlib

/-!
Shallow embedding of the launchpad-games scheduling core and Snake game.

Sources: `launchpad_game.py` (class `LaunchpadGame`, class `Timer`) and
`snake_game.py` (class `SnakeGame` and its enums).  Durations, which are
Python floats in the source, are modelled as exact rationals `ℚ`; the
arithmetic the claims depend on (`+`, `-`, `/2`, comparisons) is exact in
both representations.  The Python `dict` of timers (insertion-ordered,
integer keys produced by `hash(timer)`, distinct for distinct live timer
objects) is modelled as an insertion-ordered association list with a
monotone fresh-key counter.
-/

namespace LaunchpadGames

/-- Timer action: the deferred zero-argument callable stored in a `Timer`
(`function` plus `func_args` in the source, which binds its arguments at
creation time).  The embedding keeps the action type abstract (`α`) for the
registry operations; concrete action languages are instantiated below. -/
structure Timer (α : Type) where
  passed : ℚ
  expire : ℚ
  repeats : Bool   -- the source field `repeat` (a reserved word in Lean)
  function : α
  completed : Bool
  deriving Repr, DecidableEq

/-- Timer as built by `Timer.__init__`: `passed = 0`, `completed = False`. -/
def Timer.init {α : Type} (expire : ℚ) (function : α) (repeats : Bool) : Timer α :=
  { passed := 0, expire := expire, repeats := repeats,
    function := function, completed := false }

/-- Embedding of `Timer.update(self, t)` for a timer whose callback does not
touch the registry: increments `passed`, and when the timer is live and
`passed > expire` (strict, as in the source) invokes the callback, then
either carries the remainder (`repeat`) or marks `completed`.  The returned
`Bool` records whether `self.function` was invoked during this call (the
observable side effect of the method). -/
def Timer.update {α : Type} (tm : Timer α) (t : ℚ) : Timer α × Bool :=
  let passed := tm.passed + t
  if ¬ tm.completed ∧ passed > tm.expire then
    if tm.repeats then
      ({ tm with passed := passed - tm.expire }, true)
    else
      ({ tm with passed := passed, completed := true }, true)
  else
    ({ tm with passed := passed }, false)

/-- State of the `LaunchpadGame` timer registry: the `timers` dict as an
insertion-ordered association list, plus the fresh-key counter standing in
for the distinct `hash(timer)` values. -/
structure LaunchpadGame (α : Type) where
  timers : List (Nat × Timer α)
  next_key : Nat
  deriving Repr, DecidableEq

/-- Keys currently registered, in insertion order (the iteration order of
the Python dict). -/
def LaunchpadGame.keys {α : Type} (g : LaunchpadGame α) : List Nat :=
  g.timers.map Prod.fst

/-- Lookup `self.timers[key]` in the association list (keys are unique in
every reachable registry, so first-match lookup is exact). -/
def lookupKey {α : Type} : List (Nat × Timer α) → Nat → Option (Timer α)
  | [], _ => none
  | (k', tm) :: rest, k => if k' = k then some tm else lookupKey rest k

/-- Membership test `timer_id in self.timers`. -/
def containsKey {α : Type} (l : List (Nat × Timer α)) (k : Nat) : Bool :=
  (lookupKey l k).isSome

/-- Deletion `del self.timers[timer_id]`: removes the entry with the given
key (keys are unique in every reachable registry). -/
def eraseKey {α : Type} : List (Nat × Timer α) → Nat → List (Nat × Timer α)
  | [], _ => []
  | (k, tm) :: rest, i => if k = i then rest else (k, tm) :: eraseKey rest i

/-- In-place update of one timer's fields, as in
`self.timers[key] = ...` / attribute mutation on the stored object. -/
def setKey {α : Type} : List (Nat × Timer α) → Nat → Timer α → List (Nat × Timer α)
  | [], _, _ => []
  | (k, tm) :: rest, i, tm' => if k = i then (k, tm') :: rest else (k, tm) :: setKey rest i tm'

/-- Assignment `self.timers[timer_id].passed = p` used by `start_anim`. -/
def setPassed {α : Type} : List (Nat × Timer α) → Nat → ℚ → List (Nat × Timer α)
  | [], _, _ => []
  | (k, tm) :: rest, i, p =>
    if k = i then (k, { tm with passed := p }) :: rest else (k, tm) :: setPassed rest i p

/-- Embedding of `LaunchpadGame.start_timer`: builds the `Timer`, stores it
under a fresh key and returns that key.  The source performs no validation
of `timeout` whatsoever. -/
def start_timer {α : Type} (g : LaunchpadGame α) (function : α) (timeout : ℚ)
    (repeats : Bool) : Nat × LaunchpadGame α :=
  (g.next_key,
   { timers := g.timers ++ [(g.next_key, Timer.init timeout function repeats)],
     next_key := g.next_key + 1 })

/-- Embedding of `LaunchpadGame.stop_timer(*timer_ids)`: walks the supplied
ids in order; on the first id present in the registry it deletes that entry
and immediately returns `True`; if none is present it returns `False`. -/
def stop_timer {α : Type} (g : LaunchpadGame α) : List Nat → Bool × LaunchpadGame α
  | [] => (false, g)
  | i :: rest =>
    if containsKey g.timers i then
      (true, { g with timers := eraseKey g.timers i })
    else
      stop_timer g rest

/-- Embedding of `LaunchpadGame.stop_all_timers`. -/
def stop_all_timers {α : Type} (g : LaunchpadGame α) : Bool × LaunchpadGame α :=
  if g.timers.length > 0 then (true, { g with timers := [] }) else (false, g)

/-- One keyframe argument of `start_anim`: in the source, a tuple whose last
component is the delay since the previous keyframe and whose other
components are the function and its bound arguments (here bundled into the
action). -/
structure Keyframe (α : Type) where
  action : α
  delay : ℚ
  deriving Repr, DecidableEq

/-- Total animation time, `total_time = Σ tuple_[-1]` in `start_anim`. -/
def animTotal {α : Type} (kfs : List (Keyframe α)) : ℚ :=
  (kfs.map Keyframe.delay).sum

/-- Cumulative delay of the first `n` keyframes (the source's
`running_time` after processing keyframe `n-1`). -/
def animCsum {α : Type} (kfs : List (Keyframe α)) (n : Nat) : ℚ :=
  ((kfs.take n).map Keyframe.delay).sum

/-- Loop body of `start_anim`: for each keyframe, create a timer with
`timeout = total_time`, then overwrite its `passed` with
`total_time - running_time`. -/
def start_anim_go {α : Type} (total : ℚ) (repeats : Bool) :
    List (Keyframe α) → ℚ → LaunchpadGame α → List Nat × LaunchpadGame α
  | [], _, g => ([], g)
  | kf :: rest, running, g =>
    let running' := running + kf.delay
    let (timer_id, g1) := start_timer g kf.action total repeats
    let g2 : LaunchpadGame α := { g1 with timers := setPassed g1.timers timer_id (total - running') }
    let (ids, g3) := start_anim_go total repeats rest running' g2
    (timer_id :: ids, g3)

/-- Embedding of `LaunchpadGame.start_anim(*tuples, repeat)`. -/
def start_anim {α : Type} (g : LaunchpadGame α) (kfs : List (Keyframe α))
    (repeats : Bool) : List Nat × LaunchpadGame α :=
  start_anim_go (animTotal kfs) repeats kfs 0 g

/-- Well-formedness of a registry: every registered key was produced by the
fresh-key counter, hence is below `next_key`.  Holds for every game state
reachable from `setup` (which clears the registry). -/
def GameWF {α : Type} (g : LaunchpadGame α) : Prop :=
  ∀ p ∈ g.timers, p.1 < g.next_key

instance {α : Type} (g : LaunchpadGame α) : Decidable (GameWF g) :=
  List.decidableBAll _ g.timers

/-- Callback language for registry-level claims: what a timer callback may
do to the registry during `play`'s advance pass.  `stop k` models a
callback whose body is `self.stop_timer(k)`; `noop` a callback that leaves
the registry alone. -/
inductive GAction : Type where
  | noop : GAction
  | stop : Nat → GAction
  deriving Repr, DecidableEq

/-- Effect of running one callback on the registry. -/
def runGAction (g : LaunchpadGame GAction) : GAction → LaunchpadGame GAction
  | GAction.noop => g
  | GAction.stop k => (stop_timer g [k]).2

/-- The timer-advance pass of `LaunchpadGame.play`, iterating over the key
snapshot `list(self.timers)` taken at the start of the pass:

for each snapshotted key the source evaluates `self.timers[key]`, which
raises `KeyError` when a callback already deleted that key (modelled as
`none`); otherwise it runs `Timer.update(delta)` inline — `passed += delta`
first, then, if the timer fires, the callback (which may mutate the
registry) and then the repeat/complete bookkeeping, written back only if
the key is still registered (the Python object mutation is lost when the
entry was deleted).  The second component is the log of keys whose callback
was invoked, in firing order. -/
def runTimers (delta : ℚ) :
    List Nat → LaunchpadGame GAction → List Nat →
    Option (LaunchpadGame GAction) × List Nat
  | [], g, log => (some g, log)
  | k :: rest, g, log =>
    match lookupKey g.timers k with
    | none => (none, log)     -- KeyError: `self.timers[key]` with a deleted key
    | some tm =>
      let passed := tm.passed + delta
      if ¬ tm.completed ∧ passed > tm.expire then
        let g1 : LaunchpadGame GAction :=
          { g with timers := setKey g.timers k { tm with passed := passed } }
        let g2 := runGAction g1 tm.function
        let tm' : Timer GAction :=
          if tm.repeats then { tm with passed := passed - tm.expire }
          else { tm with passed := passed, completed := true }
        let g3 : LaunchpadGame GAction :=
          if containsKey g2.timers k then { g2 with timers := setKey g2.timers k tm' } else g2
        runTimers delta rest g3 (log ++ [k])
      else
        runTimers delta rest
          { g with timers := setKey g.timers k { tm with passed := passed } } log

/-- One tick's timer processing in `play`: advance every snapshotted timer,
then delete the completed ones.  `none` means the pass aborted with
`KeyError`. -/
def tickTimers (g : LaunchpadGame GAction) (delta : ℚ) :
    Option (LaunchpadGame GAction) × List Nat :=
  match runTimers delta g.keys g [] with
  | (none, log) => (none, log)
  | (some g', log) =>
    (some { g' with timers := g'.timers.filter (fun p => ¬ p.2.completed) }, log)

/-! ## Snake game (`snake_game.py`) -/

/-- Enum `GameState` of `snake_game.py`. -/
inductive GameState : Type where
  | tutorial : GameState
  | starting : GameState
  | snaking : GameState
  | dying : GameState
  | show_score : GameState
  deriving Repr, DecidableEq, BEq

/-- Enum `TileType` of `snake_game.py`. -/
inductive TileType : Type where
  | empty : TileType
  | snake : TileType
  | food : TileType
  deriving Repr, DecidableEq, BEq

/-- Enum `Direction` of `snake_game.py`. -/
inductive Direction : Type where
  | up : Direction
  | down : Direction
  | left : Direction
  | right : Direction
  deriving Repr, DecidableEq, BEq

/-- Embedding of the module-level `is_opposite_dir(dir1, dir2)`. -/
def is_opposite_dir (dir1 dir2 : Direction) : Bool :=
  if dir1 = Direction.up ∧ dir2 = Direction.down then true
  else if dir1 = Direction.down ∧ dir2 = Direction.up then true
  else if dir1 = Direction.left ∧ dir2 = Direction.right then true
  else if dir1 = Direction.right ∧ dir2 = Direction.left then true
  else false

/-- Deferred callables that `SnakeGame` hands to `start_timer` /
`start_anim` (bound method plus its arguments, captured at creation).
`noneFn` stands for the literal `None` callable used for pure-delay
keyframes (skipped by `Timer.update`'s `if self.function:` guard). -/
inductive SAction : Type where
  | updateSnake : SAction
  | changeState : GameState → SAction
  | ledCtrl : ℤ → ℤ → ℕ → ℕ → SAction
  | tryDirChange : Direction → SAction
  | drawGridButtons : Direction → Bool → SAction
  | drawArrowButtons : Direction → Bool → SAction
  | tutorialFn : Bool → SAction
  | noneFn : SAction
  deriving Repr, DecidableEq

/-- Commands sent to the launchpad I/O collaborator (`lp.led_ctrl_xy` and
`lp.reset`), recorded as a trace in order of issue. -/
inductive LpCmd : Type where
  | led : ℤ → ℤ → ℕ → ℕ → LpCmd
  | reset : LpCmd
  deriving Repr, DecidableEq

/-- Class constants of `SnakeGame` used by the embedded operations. -/
def BOARD_WIDTH : ℤ := 8

def BOARD_HEIGHT : ℤ := 8

def FOOD_VALUE : ℕ := 1

def SNAKE_SPD : ℚ := 3.2

def SNAKE_UPDATE_DELAY : ℚ := 1 / SNAKE_SPD

def TIM_SNAKE_FLASH : ℚ := 0.075

def TIM_SHOW_SCORE : ℚ := 0.04

def COL_SNAKE : List (ℕ × ℕ) := [(3, 0), (2, 0), (1, 0)]

/-- The board `self.board`, a list of `BOARD_WIDTH` columns indexed as
`board[x][y]`.  All reads and writes in the embedded operations happen at
wrapped in-range coordinates, as in the source, so the out-of-range
defaults below are never exercised. -/
abbrev Board := List (List TileType)

/-- Read `self.board[x][y]`. -/
def tileAt (b : Board) (p : ℤ × ℤ) : TileType :=
  (b.getD p.1.toNat []).getD p.2.toNat TileType.empty

/-- Write `self.board[x][y] = t`. -/
def setTile (b : Board) (p : ℤ × ℤ) (t : TileType) : Board :=
  b.set p.1.toNat ((b.getD p.1.toNat []).set p.2.toNat t)

/-- State of one `SnakeGame` instance: the game-specific fields of
`snake_game.py` plus the inherited timer registry, the trace of commands
sent to the launchpad, and the stream of `random.randint(0, 7)` draws
consumed by `eat_food` (`rand n` is the n-th draw pair, reduced mod 8 to
model `randint`'s inclusive range; `rand_idx` counts draws consumed so
far). -/
structure SnakeGame where
  state : GameState
  board : Board
  snake_loc : ℤ × ℤ
  snake_dir : Direction
  snake_len : ℕ
  snake_body : List (ℤ × ℤ)
  dir_buffer : List Direction
  food_loc : ℤ × ℤ
  game : LaunchpadGame SAction
  tmr_snake : Nat
  rand : ℕ → ℕ × ℕ
  rand_idx : ℕ
  lp : List LpCmd

/-- The direction `try_dir_change` compares against: the most recently
buffered direction (`self.dir_buffer[0]`, the left end of the deque) when
the buffer is nonempty, the active direction otherwise. -/
def bufferedOrActive (s : SnakeGame) : Direction :=
  match s.dir_buffer with
  | p :: _ => p
  | [] => s.snake_dir

/-- Embedding of `SnakeGame.try_dir_change(direction)`: prepend
(`appendleft`) the direction unless it equals or is opposite to the
most recently buffered / active direction. -/
def try_dir_change (s : SnakeGame) (direction : Direction) : SnakeGame :=
  let prev_dir := bufferedOrActive s
  if direction ≠ prev_dir then
    if is_opposite_dir direction prev_dir = false then
      { s with dir_buffer := direction :: s.dir_buffer }
    else s
  else s

/-- The unwrapped one-step move of `move_snake`: shift `snake_loc` by one
cell in the current direction. -/
def step_loc (loc : ℤ × ℤ) : Direction → ℤ × ℤ
  | Direction.up => (loc.1, loc.2 - 1)
  | Direction.down => (loc.1, loc.2 + 1)
  | Direction.left => (loc.1 - 1, loc.2)
  | Direction.right => (loc.1 + 1, loc.2)

/-- The target cell computed by `move_snake`: one step in the heading,
then the source's four wraparound guards (`< 0` becomes the far edge,
`≥ width/height` becomes `0`). -/
def target_loc (loc : ℤ × ℤ) (d : Direction) : ℤ × ℤ :=
  let t := step_loc loc d
  let x := if t.1 < 0 then BOARD_WIDTH - 1 else if t.1 ≥ BOARD_WIDTH then 0 else t.1
  let y := if t.2 < 0 then BOARD_HEIGHT - 1 else if t.2 ≥ BOARD_HEIGHT then 0 else t.2
  (x, y)

/-- Modelled from the spec's words for the wraparound claim, for comparison
with `target_loc`: "the position shifted one step in the heading with
coordinates reduced modulo the board width and height". -/
def target_loc_mod_spec (loc : ℤ × ℤ) (d : Direction) : ℤ × ℤ :=
  ((step_loc loc d).1 % BOARD_WIDTH, (step_loc loc d).2 % BOARD_HEIGHT)

/-- The rejection-sampling loop of `eat_food`, made step-indexed: draw
`randint(0,7)` pairs from the stream starting at index `start` and keep
retrying while the drawn tile is not empty.  The source's `while
is_bad_loc:` loop has no retry bound; `fuel` is the number of iterations
the embedding is allowed to observe, and `none` means the loop was still
running after `fuel` draws.  On success, returns the next unconsumed
stream index and the found cell. -/
def eat_food_search (b : Board) (rand : ℕ → ℕ × ℕ) : ℕ → ℕ → Option (ℕ × (ℤ × ℤ))
  | _, 0 => none
  | start, fuel + 1 =>
    let new_x : ℤ := ((rand start).1 % 8 : ℕ)
    let new_y : ℤ := ((rand start).2 % 8 : ℕ)
    if tileAt b (new_x, new_y) ≠ TileType.empty then
      eat_food_search b rand (start + 1) fuel
    else
      some (start + 1, (new_x, new_y))

/-- Embedding of `SnakeGame.eat_food`: grow `snake_len` by `FOOD_VALUE`,
find an empty cell by rejection sampling, then move the food there (board
writes and launchpad updates in source order).  `none` propagates the
unbounded search running out of observation fuel. -/
def eat_food (fuel : ℕ) (s : SnakeGame) : Option SnakeGame :=
  let s1 := { s with snake_len := s.snake_len + FOOD_VALUE }
  match eat_food_search s1.board s1.rand s1.rand_idx fuel with
  | none => none
  | some (idx', new_loc) =>
    let old := s1.food_loc
    some { s1 with
           board := setTile (setTile s1.board old TileType.empty) new_loc TileType.food,
           lp := s1.lp ++ [LpCmd.led old.1 (old.2 + 1) 0 0,
                           LpCmd.led new_loc.1 (new_loc.2 + 1) 0 3],
           food_loc := new_loc,
           rand_idx := idx' }

/-- Embedding of `SnakeGame.move_snake`: compute the wrapped target cell;
if it holds snake, return `False` with no mutation; if it holds food, eat
it; then commit the move by updating `snake_loc` and return `True`. -/
def move_snake (fuel : ℕ) (s : SnakeGame) : Option (Bool × SnakeGame) :=
  let t := target_loc s.snake_loc s.snake_dir
  if tileAt s.board t = TileType.snake then
    some (false, s)
  else
    match (if tileAt s.board t = TileType.food then eat_food fuel s else some s) with
    | none => none
    | some s1 => some (true, { s1 with snake_loc := t })

/-- Embedding of `SnakeGame.draw_snake`: one `led_ctrl_xy` per body cell,
coloured from the `COL_SNAKE` gradient by `floor(i / len * len(COL_SNAKE))`. -/
def draw_snake (s : SnakeGame) : SnakeGame :=
  { s with lp := s.lp ++ (List.range s.snake_body.length).map (fun i =>
      let c := s.snake_body.getD i (0, 0)
      let col := COL_SNAKE.getD (i * COL_SNAKE.length / s.snake_body.length) (0, 0)
      LpCmd.led c.1 (c.2 + 1) col.1 col.2) }

/-- The keyframe list built by the `dying` branch of `change_state`: a
pure delay, then per body cell an off flash and a dead-snake flash, then
the deferred transition to `show_score`. -/
def dyingAnim (body : List (ℤ × ℤ)) : List (Keyframe SAction) :=
  ⟨SAction.noneFn, TIM_SNAKE_FLASH⟩ ::
  (body.flatMap fun c =>
    [⟨SAction.ledCtrl c.1 (c.2 + 1) 0 0, 0⟩,
     ⟨SAction.ledCtrl c.1 (c.2 + 1) 3 1, TIM_SNAKE_FLASH⟩]) ++
  [⟨SAction.changeState GameState.show_score, 5 * TIM_SNAKE_FLASH⟩]

/-- Embedding of `SnakeGame.show_score`: reset the launchpad, clear all
timers, light the restart and quit buttons, and loop the score-fill
animation (two keyframes per scored cell, capped at the board's 64
tiles). -/
def show_score (s : SnakeGame) : SnakeGame :=
  let g1 := (stop_all_timers s.game).2
  let score := min s.snake_len ((BOARD_WIDTH * BOARD_HEIGHT).toNat)
  let anim : List (Keyframe SAction) :=
    ⟨SAction.noneFn, 8 * TIM_SHOW_SCORE⟩ ::
    (List.range score).flatMap (fun i =>
      let x : ℤ := (i % 8 : ℕ)
      let y : ℤ := ((i / 8 : ℕ) : ℤ) + 1
      [⟨SAction.ledCtrl x y 0 3, 0⟩, ⟨SAction.ledCtrl x y 3 0, TIM_SHOW_SCORE⟩])
  let g2 := (start_anim g1 anim true).2
  { s with lp := s.lp ++ [LpCmd.reset, LpCmd.led 8 7 0 3, LpCmd.led 8 8 3 0],
           game := g2 }

/-- Embedding of `SnakeGame.change_state(new_state)`: records
`state_transition = (self.state is new_state)` before assigning the new
state (exactly as the source does), assigns it, runs the entry effects of
the branch matching the new state, and returns the recorded boolean. -/
def change_state (s : SnakeGame) (new_state : GameState) : Bool × SnakeGame :=
  let state_transition := s.state == new_state
  let s := { s with state := new_state }
  match new_state with
  | GameState.tutorial => (state_transition, s)
  | GameState.starting =>
    (state_transition, { s with lp := s.lp ++ [LpCmd.led 8 8 3 0] })
  | GameState.snaking =>
    let r := start_timer s.game SAction.updateSnake SNAKE_UPDATE_DELAY true
    (state_transition, { s with game := r.2, tmr_snake := r.1 })
  | GameState.dying =>
    let g1 := (stop_timer s.game [s.tmr_snake]).2
    let g2 := (start_anim g1 (dyingAnim s.snake_body) false).2
    (state_transition, { s with game := g2 })
  | GameState.show_score => (state_transition, show_score s)

/-- Pop of the direction buffer at the top of `update_snake`: take the
rightmost (oldest) buffered direction as the new heading, if any. -/
def popDir (s : SnakeGame) : SnakeGame :=
  match s.dir_buffer.getLast? with
  | some d => { s with snake_dir := d, dir_buffer := s.dir_buffer.dropLast }
  | none => s

/-- Embedding of `SnakeGame.update_snake`: pop the buffered direction,
attempt the move; on collision transition to `dying` and return; otherwise
prepend the new head, trim and erase the tail when the body exceeds the
target length, and redraw the snake. -/
def update_snake (fuel : ℕ) (s : SnakeGame) : Option SnakeGame :=
  let s := popDir s
  match move_snake fuel s with
  | none => none
  | some (false, s1) => some (change_state s1 GameState.dying).2
  | some (true, s1) =>
    let s2 := { s1 with snake_body := s1.snake_loc :: s1.snake_body,
                        board := setTile s1.board s1.snake_loc TileType.snake }
    if s2.snake_body.length > s2.snake_len then
      let tail := s2.snake_body.getLastD (0, 0)
      some (draw_snake { s2 with
        snake_body := s2.snake_body.dropLast,
        board := setTile s2.board tail TileType.empty,
        lp := s2.lp ++ [LpCmd.led tail.1 (tail.2 + 1) 0 0] })
    else
      some (draw_snake s2)

/-! ## Concrete states and derived descriptions used by the theorems -/

/-- Declarative description of the timers `start_anim` creates: keyframe
`i` (0-based) becomes key `k + i` holding a timer with `expire = total`,
`passed = total - (running + cumulative delay through keyframe i)`, the
shared repeat flag, and the keyframe's action. -/
def animEntries {α : Type} (total : ℚ) (repeats : Bool) :
    List (Keyframe α) → Nat → ℚ → List (Nat × Timer α)
  | [], _, _ => []
  | kf :: rest, k, running =>
    (k, { passed := total - (running + kf.delay), expire := total, repeats := repeats,
          function := kf.action, completed := false })
    :: animEntries total repeats rest (k + 1) (running + kf.delay)

/-- First supplied id that is present in the registry (the id whose entry
`stop_timer` deletes). -/
def firstPresent {α : Type} (g : LaunchpadGame α) (ids : List Nat) : Option Nat :=
  ids.find? (fun i => containsKey g.timers i)

/-- One loop step of `start_anim` acting on the registry: the freshly
created keyframe timer (period `total`, elapsed already overwritten to
`total - running'`) appended under the fresh key. -/
def animStep {α : Type} (g : LaunchpadGame α) (total running' : ℚ)
    (kf : Keyframe α) (repeats : Bool) : LaunchpadGame α :=
  { timers := g.timers ++ [(g.next_key,
      { passed := total - running', expire := total, repeats := repeats,
        function := kf.action, completed := false })],
    next_key := g.next_key + 1 }

/-- Registry with two due timers: timer 0 whose callback cancels timer 1,
and timer 1 with an inert callback.  Both are due after an advance of 2. -/
def exG2 : LaunchpadGame GAction :=
  { timers := [(0, Timer.init 1 (GAction.stop 1) false),
               (1, Timer.init 1 GAction.noop false)],
    next_key := 2 }

/-- Registry holding inert timers under keys 3 and 5. -/
def exG3 : LaunchpadGame GAction :=
  { timers := [(3, Timer.init 1 GAction.noop false),
               (5, Timer.init 2 GAction.noop true)],
    next_key := 6 }

/-- The all-empty 8×8 board. -/
def emptyBoard : Board := List.replicate 8 (List.replicate 8 TileType.empty)

/-- The board as `SnakeGame.setup` builds it: empty except food at the
initial food location (5, 5). -/
def initBoard : Board := setTile emptyBoard (5, 5) TileType.food

/-- A board with no empty cell at all (every tile snake). -/
def satBoard : Board := List.replicate 8 (List.replicate 8 TileType.snake)

/-- A constant stream of random draws, always picking (0, 0). -/
def constRand : ℕ → ℕ × ℕ := fun _ => (0, 0)

/-- A `SnakeGame` as `setup` leaves it (before the tutorial timer): initial
snake position (1, 8), heading up, target length 5, empty body and
buffer, food at (5, 5), empty registry. -/
def baseSnake : SnakeGame :=
  { state := GameState.tutorial, board := initBoard, snake_loc := (1, 8),
    snake_dir := Direction.up, snake_len := 5, snake_body := [],
    dir_buffer := [], food_loc := (5, 5), game := { timers := [], next_key := 0 },
    tmr_snake := 0, rand := constRand, rand_idx := 0, lp := [] }

/-- Board for the self-collision scenario: food at (5, 5) and snake cells
at (1, 1), (1, 2) and (1, 3). -/
def collideBoard : Board :=
  setTile (setTile (setTile initBoard (1, 1) TileType.snake) (1, 2) TileType.snake)
    (1, 3) TileType.snake

/-- The self-collision scenario of the claim: body {(1,1), (1,2), (1,3)}
with the head at (1, 1) about to move into (1, 2) (heading down), one
running movement timer. -/
def collideSnake : SnakeGame :=
  { baseSnake with
    state := GameState.snaking, board := collideBoard, snake_loc := (1, 1),
    snake_dir := Direction.down, snake_len := 3,
    snake_body := [(1, 1), (1, 2), (1, 3)],
    game := { timers := [(0, Timer.init SNAKE_UPDATE_DELAY SAction.updateSnake true)],
              next_key := 1 },
    tmr_snake := 0 }

/-- Helper: an update that does not reach past the expiry only accumulates
elapsed time and does not invoke the action. -/
theorem Timer.update_no_fire {α : Type} (tm : Timer α) (t : ℚ)
    (h : ¬ tm.passed + t > tm.expire) :
    tm.update t = ({ tm with passed := tm.passed + t }, false) := by
  unfold Timer.update
  rw [if_neg (fun hc => h hc.2)]

/-- Helper: a live timer whose elapsed time strictly passes the expiry
invokes the action. -/
theorem Timer.update_fire {α : Type} (tm : Timer α) (t : ℚ)
    (hc : tm.completed = false) (h : tm.passed + t > tm.expire) :
    (tm.update t).2 = true := by
  unfold Timer.update
  rw [if_pos ⟨by simp [hc], h⟩]
  split <;> rfl

/-- C1 counterexample: with period 1 and no repeat, scheduling and then
advancing by exactly the period does not invoke the action: the source
fires only on `passed > expire`, strictly. -/
theorem timer_exact_period_no_fire :
    ((Timer.init (α := GAction) 1 GAction.noop false).update 1).2 = false := by
  rw [Timer.update_no_fire _ _ (by norm_num [Timer.init])]

/-- C1 amended: for every period > 0 and repeat flag, a freshly scheduled
timer does not fire on an advance of exactly period, nor on two advances
of period/2 (the boundary elapsed == period does not count as fired); a
single advance by any t > period fires exactly once. -/
theorem timer_fire_strict {α : Type} (a : α) (period : ℚ) (repeats : Bool)
    (hp : 0 < period) :
    ((Timer.init period a repeats).update period).2 = false
    ∧ (((Timer.init period a repeats).update (period / 2)).1.update (period / 2)).2 = false
    ∧ ∀ t : ℚ, period < t → ((Timer.init period a repeats).update t).2 = true := by
  refine ⟨?_, ?_, ?_⟩
  · rw [Timer.update_no_fire _ _ (by simp [Timer.init])]
  · have e1 : (Timer.init period a repeats).update (period / 2)
        = ({ Timer.init period a repeats with passed := 0 + period / 2 }, false) :=
      Timer.update_no_fire _ _ (by simp [Timer.init]; linarith)
    rw [e1]
    rw [Timer.update_no_fire _ _ (by simp [Timer.init])]
  · intro t ht
    exact Timer.update_fire _ _ rfl (by simp [Timer.init]; linarith)

theorem timer_fire_strict_witness :
    (0 : ℚ) < 1
    ∧ (((Timer.init (α := GAction) 1 GAction.noop false).update (1 / 2)).1.update (1 / 2)).2 = false :=
  ⟨by norm_num, (timer_fire_strict GAction.noop 1 false (by norm_num)).2.1⟩

/-- C6 counterexample: `start_timer` with timeout 0 on a fresh registry
does not fail: it registers the timer under key 0 and returns normally
(there is no InvalidDuration anywhere in the source). -/
theorem start_timer_nonpositive_registers :
    (start_timer { timers := [], next_key := 0 } GAction.noop 0 false).2.timers
      = [(0, Timer.init 0 GAction.noop false)] := rfl

/-- C6 amended: `start_timer` performs no validation of the timeout: any
timeout, non-positive included, is silently accepted and the timer is
registered under a fresh key; such a timer then fires on the first update
with a positive delta. -/
theorem start_timer_accepts_nonpositive {α : Type} (g : LaunchpadGame α)
    (fn : α) (timeout : ℚ) (repeats : Bool) (hle : timeout ≤ 0) :
    (start_timer g fn timeout repeats).1 = g.next_key
    ∧ (start_timer g fn timeout repeats).2.timers
        = g.timers ++ [(g.next_key, Timer.init timeout fn repeats)]
    ∧ ∀ t : ℚ, 0 < t → ((Timer.init timeout fn repeats).update t).2 = true := by
  refine ⟨rfl, rfl, ?_⟩
  intro t ht
  exact Timer.update_fire _ _ rfl (by simp [Timer.init]; linarith)

theorem start_timer_accepts_nonpositive_witness :
    (0 : ℚ) ≤ 0
    ∧ (start_timer { timers := [], next_key := 0 } GAction.noop 0 false).2.timers
        = [] ++ [(0, Timer.init 0 GAction.noop false)]
    ∧ ((Timer.init 0 GAction.noop false).update 1).2 = true :=
  ⟨by norm_num,
   (start_timer_accepts_nonpositive { timers := [], next_key := 0 } GAction.noop 0 false
     (by norm_num)).2.1,
   (start_timer_accepts_nonpositive { timers := [], next_key := 0 } GAction.noop 0 false
     (by norm_num)).2.2 1 (by norm_num)⟩

/-- Helper: deleting key `i` leaves lookups of every other key unchanged. -/
theorem lookupKey_eraseKey_ne {α : Type} (l : List (Nat × Timer α)) (i j : Nat)
    (h : j ≠ i) : lookupKey (eraseKey l i) j = lookupKey l j := by
  induction l with
  | nil => rfl
  | cons p rest ih =>
    obtain ⟨k, tm⟩ := p
    have e1 : eraseKey ((k, tm) :: rest) i
        = if k = i then rest else (k, tm) :: eraseKey rest i := rfl
    have e2 : lookupKey ((k, tm) :: rest) j
        = if k = j then some tm else lookupKey rest j := rfl
    rw [e1, e2]
    by_cases hk : k = i
    · rw [if_pos hk]
      subst hk
      rw [if_neg (fun hkj : k = j => h hkj.symm)]
    · rw [if_neg hk]
      have e3 : lookupKey ((k, tm) :: eraseKey rest i) j
          = if k = j then some tm else lookupKey (eraseKey rest i) j := rfl
      rw [e3]
      by_cases hkj : k = j
      · rw [if_pos hkj, if_pos hkj]
      · rw [if_neg hkj, if_neg hkj, ih]

/-- Helper: deleting a present key removes exactly one entry. -/
theorem eraseKey_length {α : Type} (l : List (Nat × Timer α)) (i : Nat)
    (h : containsKey l i = true) : (eraseKey l i).length + 1 = l.length := by
  induction l with
  | nil => simp [containsKey, lookupKey] at h
  | cons p rest ih =>
    obtain ⟨k, tm⟩ := p
    have e1 : eraseKey ((k, tm) :: rest) i
        = if k = i then rest else (k, tm) :: eraseKey rest i := rfl
    rw [e1]
    by_cases hk : k = i
    · rw [if_pos hk, List.length_cons]
    · rw [if_neg hk, List.length_cons, List.length_cons]
      have h' : containsKey rest i = true := by
        have e2 : containsKey ((k, tm) :: rest) i
            = (if k = i then some tm else lookupKey rest i).isSome := rfl
        rw [e2, if_neg hk] at h
        exact h
      rw [ih h']

/-- C10: `stop_timer` deletes at most one timer: when none of the supplied
ids is registered it returns `False` with the registry unchanged, and
otherwise it deletes exactly the entry of the first supplied id that is
present, returns `True`, and every other key (later supplied ids included)
keeps its registration. -/
theorem stop_timer_deletes_first_present {α : Type} (g : LaunchpadGame α)
    (ids : List Nat) :
    (firstPresent g ids = none → stop_timer g ids = (false, g))
    ∧ ∀ i, firstPresent g ids = some i →
        (stop_timer g ids).1 = true
        ∧ (stop_timer g ids).2.timers = eraseKey g.timers i
        ∧ (stop_timer g ids).2.next_key = g.next_key
        ∧ (stop_timer g ids).2.timers.length + 1 = g.timers.length
        ∧ ∀ j, j ≠ i → lookupKey (stop_timer g ids).2.timers j = lookupKey g.timers j := by
  induction ids with
  | nil =>
    refine ⟨fun _ => rfl, fun i h => ?_⟩
    simp [firstPresent] at h
  | cons i0 rest ih =>
    by_cases hc : containsKey g.timers i0 = true
    · have hfp : firstPresent g (i0 :: rest) = some i0 :=
        List.find?_cons_of_pos _ hc
      have estep : stop_timer g (i0 :: rest)
          = (true, { g with timers := eraseKey g.timers i0 }) := by
        have e1 : stop_timer g (i0 :: rest)
            = if containsKey g.timers i0 = true
              then (true, { g with timers := eraseKey g.timers i0 })
              else stop_timer g rest := rfl
        rw [e1, if_pos hc]
      refine ⟨fun hnone => ?_, fun i hsome => ?_⟩
      · rw [hfp] at hnone
        exact absurd hnone (by simp)
      · rw [hfp] at hsome
        obtain rfl : i0 = i := Option.some.inj hsome
        rw [estep]
        exact ⟨rfl, rfl, rfl, eraseKey_length _ _ hc,
          fun j hj => lookupKey_eraseKey_ne _ _ _ hj⟩
    · have hfp : firstPresent g (i0 :: rest) = firstPresent g rest :=
        List.find?_cons_of_neg _ (by simpa using hc)
      have estep : stop_timer g (i0 :: rest) = stop_timer g rest := by
        have e1 : stop_timer g (i0 :: rest)
            = if containsKey g.timers i0 = true
              then (true, { g with timers := eraseKey g.timers i0 })
              else stop_timer g rest := rfl
        rw [e1, if_neg hc]
      rw [hfp, estep]
      exact ih

theorem stop_timer_deletes_first_present_witness :
    firstPresent exG3 [4, 5, 3] = some 5
    ∧ (stop_timer exG3 [4, 5, 3]).1 = true
    ∧ (stop_timer exG3 [4, 5, 3]).2.timers = eraseKey exG3.timers 5
    ∧ lookupKey (stop_timer exG3 [4, 5, 3]).2.timers 3 = lookupKey exG3.timers 3 :=
  ⟨by decide,
   ((stop_timer_deletes_first_present exG3 [4, 5, 3]).2 5 (by decide)).1,
   ((stop_timer_deletes_first_present exG3 [4, 5, 3]).2 5 (by decide)).2.1,
   ((stop_timer_deletes_first_present exG3 [4, 5, 3]).2 5 (by decide)).2.2.2.2 3
     (by decide)⟩

/-- Helper: the advance pass only fires keys taken from its snapshot (or
already in the accumulated log). -/
theorem runTimers_log_mem (delta : ℚ) (keys : List Nat) :
    ∀ (g : LaunchpadGame GAction) (log : List Nat) (k : Nat),
      k ∈ (runTimers delta keys g log).2 → k ∈ keys ∨ k ∈ log := by
  induction keys with
  | nil =>
    intro g log k h
    simp only [runTimers] at h
    exact Or.inr h
  | cons k0 rest ih =>
    intro g log k h
    simp only [runTimers] at h
    split at h
    · exact Or.inr h
    · split at h
      · rcases ih _ _ _ h with h1 | h2
        · exact Or.inl (List.mem_cons_of_mem _ h1)
        · rcases List.mem_append.mp h2 with h3 | h4
          · exact Or.inr h3
          · have hk0 : k = k0 := List.mem_singleton.mp h4
            exact Or.inl (hk0 ▸ List.mem_cons_self k0 rest)
      · rcases ih _ _ _ h with h1 | h2
        · exact Or.inl (List.mem_cons_of_mem _ h1)
        · exact Or.inr h2

/-- Helper: the fired-log of a tick equals the log of its advance pass. -/
theorem tickTimers_log (g : LaunchpadGame GAction) (delta : ℚ) :
    (tickTimers g delta).2 = (runTimers delta g.keys g []).2 := by
  unfold tickTimers
  rcases hr : runTimers delta g.keys g [] with ⟨og, log⟩
  cases og <;> simp

/-- Helper: evaluation of the crash scenario: timer 0 fires and its
callback cancels the not-yet-visited timer 1; the pass then aborts with a
`KeyError` (modelled `none`), having fired only timer 0. -/
theorem exG2_tick : tickTimers exG2 2 = (none, [0]) := by
  norm_num [tickTimers, runTimers, exG2, LaunchpadGame.keys, Timer.init,
    setKey, containsKey, lookupKey, runGAction, stop_timer, eraseKey]

/-- C2 counterexample: in `exG2`, timer 1 is cancelled by timer 0's
callback during the same advance pass that would have fired it; its action
indeed never runs, but the pass does not survive: it aborts with a
`KeyError` when it reaches the stale snapshot key 1. -/
theorem tick_callback_cancel_keyerror : tickTimers exG2 2 = (none, [0]) :=
  exG2_tick

/-- C2 amended: a timer absent from the registry when the advance pass
starts never has its action run by that pass; and when a callback cancels
a not-yet-visited timer mid-pass (scenario `exG2`), the cancelled action
still never runs but the pass aborts with a `KeyError` instead of
completing safely. -/
theorem cancelled_timer_never_fires (g : LaunchpadGame GAction) (delta : ℚ)
    (k : Nat) (h : k ∉ g.keys) :
    k ∉ (tickTimers g delta).2
    ∧ (tickTimers exG2 2).1 = none
    ∧ (1 : Nat) ∉ (tickTimers exG2 2).2 := by
  refine ⟨fun hmem => ?_, ?_, ?_⟩
  · rw [tickTimers_log] at hmem
    rcases runTimers_log_mem delta g.keys g [] k hmem with h1 | h2
    · exact h h1
    · simp at h2
  · rw [exG2_tick]
  · rw [exG2_tick]
    simp

theorem cancelled_timer_never_fires_witness :
    (7 : Nat) ∉ exG2.keys ∧ (7 : Nat) ∉ (tickTimers exG2 1).2 :=
  ⟨by decide, (cancelled_timer_never_fires exG2 1 7 (by decide)).1⟩

/-- C5 counterexample: from the initial state (heading up, empty buffer),
buffering left and then down leaves two entries in the buffer: the buffer
is not a one-slot structure. -/
theorem dir_buffer_holds_two :
    ((try_dir_change (try_dir_change baseSnake Direction.left) Direction.down).dir_buffer).length
      = 2 := by decide

/-- C5 amended: `try_dir_change` accepts a direction exactly when it both
differs from and is not opposite to the front of the buffer (or the active
direction when the buffer is empty), prepending it without clearing, so
the buffer can hold more than one entry; in particular, while moving up,
buffering down leaves the buffer unchanged, and buffering left then right
retains only left. -/
theorem try_dir_change_rule (s : SnakeGame) (d : Direction) :
    (d = bufferedOrActive s → try_dir_change s d = s)
    ∧ (is_opposite_dir d (bufferedOrActive s) = true → try_dir_change s d = s)
    ∧ (d ≠ bufferedOrActive s → is_opposite_dir d (bufferedOrActive s) = false →
        (try_dir_change s d).dir_buffer = d :: s.dir_buffer)
    ∧ (s.snake_dir = Direction.up → s.dir_buffer = [] →
        (try_dir_change s Direction.down).dir_buffer = s.dir_buffer
        ∧ (try_dir_change (try_dir_change s Direction.left) Direction.right).dir_buffer
            = [Direction.left]) := by
  refine ⟨fun heq => ?_, fun hop => ?_, fun hne hof => ?_, fun hdir hbuf => ?_⟩
  · simp [try_dir_change, heq]
  · simp [try_dir_change, hop]
  · simp [try_dir_change, hne, hof]
  · have hba : bufferedOrActive s = Direction.up := by
      simp [bufferedOrActive, hbuf, hdir]
    constructor
    · simp [try_dir_change, hba, is_opposite_dir]
    · have e1 : try_dir_change s Direction.left
          = { s with dir_buffer := Direction.left :: s.dir_buffer } := by
        simp [try_dir_change, hba, is_opposite_dir]
      rw [e1, hbuf]
      have hba2 : bufferedOrActive { s with dir_buffer := [Direction.left] }
          = Direction.left := by
        simp [bufferedOrActive]
      simp [try_dir_change, hba2, is_opposite_dir]

theorem try_dir_change_rule_witness :
    baseSnake.snake_dir = Direction.up ∧ baseSnake.dir_buffer = []
    ∧ (try_dir_change baseSnake Direction.down).dir_buffer = baseSnake.dir_buffer
    ∧ (try_dir_change (try_dir_change baseSnake Direction.left) Direction.right).dir_buffer
        = [Direction.left] :=
  ⟨rfl, rfl,
   ((try_dir_change_rule baseSnake Direction.down).2.2.2 rfl rfl).1,
   ((try_dir_change_rule baseSnake Direction.down).2.2.2 rfl rfl).2⟩

/-- C9 counterexample: at the source's own initial snake position (1, 8)
(one row below the board), heading down, the code's wraparound produces
(1, 0) while reduction modulo the board size produces (1, 1): the target
is not always the mod-8 shift. -/
theorem target_wrap_not_mod :
    target_loc (1, 8) Direction.down = (1, 0)
    ∧ target_loc_mod_spec (1, 8) Direction.down = (1, 1) := by decide

/-- C9 amended: for positions on the board (0 ≤ x < 8, 0 ≤ y < 8) the
target cell of `move_snake` is the one-step shift with both coordinates
reduced modulo the board width and height, and it always lies on the
board; heading right at (7, y) yields (0, y).  (Off the board, as at the
initial position (1, 8), the clamp-style wrap can differ from the modulo
reduction.) -/
theorem target_loc_mod_on_board (x y : ℤ) (d : Direction)
    (hx0 : 0 ≤ x) (hx : x < 8) (hy0 : 0 ≤ y) (hy : y < 8) :
    target_loc (x, y) d = target_loc_mod_spec (x, y) d
    ∧ 0 ≤ (target_loc (x, y) d).1 ∧ (target_loc (x, y) d).1 < 8
    ∧ 0 ≤ (target_loc (x, y) d).2 ∧ (target_loc (x, y) d).2 < 8
    ∧ target_loc (7, y) Direction.right = (0, y) := by
  cases d <;>
    refine ⟨?_, ?_, ?_, ?_, ?_, ?_⟩ <;>
      simp only [target_loc, step_loc, target_loc_mod_spec, BOARD_WIDTH, BOARD_HEIGHT,
        Prod.mk.injEq] <;>
      split_ifs <;> omega

theorem target_loc_mod_on_board_witness :
    ((0 : ℤ) ≤ 7 ∧ (7 : ℤ) < 8 ∧ (0 : ℤ) ≤ 3 ∧ (3 : ℤ) < 8)
    ∧ target_loc (7, 3) Direction.right = target_loc_mod_spec (7, 3) Direction.right
    ∧ target_loc (7, 3) Direction.right = (0, 3) :=
  ⟨by norm_num,
   (target_loc_mod_on_board 7 3 Direction.right (by norm_num) (by norm_num)
     (by norm_num) (by norm_num)).1,
   (target_loc_mod_on_board 7 3 Direction.right (by norm_num) (by norm_num)
     (by norm_num) (by norm_num)).2.2.2.2.2⟩

/-- C4: evaluation of `change_state` at the failing input.  A real
transition (tutorial to starting) returns `False`, and a re-entry
(snaking to snaking, show_score to show_score) returns `True`: the source
computes `state_transition = (self.state is new_state)` before assigning,
the opposite of its documented "True if there was a state transition".
Entry actions do run even on re-entry: re-entering snaking registers a
fresh movement timer, and re-entering show_score reschedules the full
11-keyframe score animation group. -/
theorem change_state_return_inverted :
    (change_state baseSnake GameState.starting).1 = false
    ∧ baseSnake.state ≠ GameState.starting
    ∧ (change_state { baseSnake with state := GameState.snaking } GameState.snaking).1 = true
    ∧ (change_state { baseSnake with state := GameState.snaking }
        GameState.snaking).2.game.timers.length
        = baseSnake.game.timers.length + 1
    ∧ (change_state { baseSnake with state := GameState.show_score } GameState.show_score).1 = true
    ∧ (change_state { baseSnake with state := GameState.show_score }
        GameState.show_score).2.game.timers.length = 11 := by
  refine ⟨rfl, by decide, rfl, rfl, rfl, ?_⟩
  decide

/-- Helper: popping the direction buffer leaves board, head position and
body untouched. -/
theorem popDir_board (s : SnakeGame) : (popDir s).board = s.board := by
  unfold popDir
  split <;> rfl

theorem popDir_loc (s : SnakeGame) : (popDir s).snake_loc = s.snake_loc := by
  unfold popDir
  split <;> rfl

theorem popDir_body (s : SnakeGame) : (popDir s).snake_body = s.snake_body := by
  unfold popDir
  split <;> rfl

/-- C8: when the popped heading sends the snake into a body cell,
`update_snake` transitions to the dying state and mutates nothing on the
board: the grid, the head position and the body all stay as they were. -/
theorem update_snake_self_collision (fuel : ℕ) (s : SnakeGame)
    (h : tileAt (popDir s).board (target_loc (popDir s).snake_loc (popDir s).snake_dir)
        = TileType.snake) :
    update_snake fuel s = some (change_state (popDir s) GameState.dying).2
    ∧ (change_state (popDir s) GameState.dying).2.state = GameState.dying
    ∧ (change_state (popDir s) GameState.dying).2.board = s.board
    ∧ (change_state (popDir s) GameState.dying).2.snake_loc = s.snake_loc
    ∧ (change_state (popDir s) GameState.dying).2.snake_body = s.snake_body := by
  have hm : move_snake fuel (popDir s) = some (false, popDir s) := by
    unfold move_snake
    rw [if_pos h]
  refine ⟨?_, rfl, ?_, ?_, ?_⟩
  · simp only [update_snake, hm]
  · show (popDir s).board = s.board
    exact popDir_board s
  · show (popDir s).snake_loc = s.snake_loc
    exact popDir_loc s
  · show (popDir s).snake_body = s.snake_body
    exact popDir_body s

theorem update_snake_self_collision_witness :
    tileAt (popDir collideSnake).board
        (target_loc (popDir collideSnake).snake_loc (popDir collideSnake).snake_dir)
      = TileType.snake
    ∧ update_snake 0 collideSnake = some (change_state (popDir collideSnake) GameState.dying).2
    ∧ (change_state (popDir collideSnake) GameState.dying).2.state = GameState.dying
    ∧ (change_state (popDir collideSnake) GameState.dying).2.board = collideSnake.board
    ∧ (change_state (popDir collideSnake) GameState.dying).2.snake_body
        = collideSnake.snake_body :=
  ⟨by decide,
   (update_snake_self_collision 0 collideSnake (by decide)).1,
   (update_snake_self_collision 0 collideSnake (by decide)).2.1,
   (update_snake_self_collision 0 collideSnake (by decide)).2.2.1,
   (update_snake_self_collision 0 collideSnake (by decide)).2.2.2.2⟩

/-- Helper: on a board with no empty cell, every draw is rejected, so the
food search is still running after any number of retries. -/
theorem eat_food_search_saturated_aux (b : Board) (rand : ℕ → ℕ × ℕ)
    (h : ∀ x : ℕ, x < 8 → ∀ y : ℕ, y < 8 →
        tileAt b ((x : ℤ), (y : ℤ)) ≠ TileType.empty) :
    ∀ (fuel start : ℕ), eat_food_search b rand start fuel = none := by
  intro fuel
  induction fuel with
  | zero => intro start; rfl
  | succ n ih =>
    intro start
    have hx : (rand start).1 % 8 < 8 := Nat.mod_lt _ (by norm_num)
    have hy : (rand start).2 % 8 < 8 := Nat.mod_lt _ (by norm_num)
    have hne := h _ hx _ hy
    simp only [eat_food_search]
    rw [if_pos hne]
    exact ih (start + 1)

/-- C7 counterexample: on a board with no empty cell, `eat_food`'s
rejection-sampling loop is still running after 100000 retries: no retry
cap or saturation signal exists in the source. -/
theorem eat_food_search_no_bound :
    eat_food_search satBoard constRand 0 100000 = none :=
  eat_food_search_saturated_aux satBoard constRand (by decide) 100000 0

/-- C7 amended: the food search is an unbounded rejection-sampling loop:
it terminates only when a sampled cell is empty, and on a board with no
empty cell it never terminates, for any number of retries and any random
stream; the source has no retry cap and signals no BoardSaturated
condition. -/
theorem eat_food_search_saturated (b : Board) (rand : ℕ → ℕ × ℕ)
    (h : ∀ x : ℕ, x < 8 → ∀ y : ℕ, y < 8 →
        tileAt b ((x : ℤ), (y : ℤ)) ≠ TileType.empty)
    (fuel start : ℕ) :
    eat_food_search b rand start fuel = none :=
  eat_food_search_saturated_aux b rand h fuel start

theorem eat_food_search_saturated_witness :
    (∀ x : ℕ, x < 8 → ∀ y : ℕ, y < 8 →
        tileAt satBoard ((x : ℤ), (y : ℤ)) ≠ TileType.empty)
    ∧ eat_food_search satBoard constRand 3 5 = none :=
  ⟨by decide, eat_food_search_saturated satBoard constRand (by decide) 5 3⟩

/-- Helper: lookup skips a prefix in which the key does not occur. -/
theorem lookupKey_append_left_none {α : Type} (l1 l2 : List (Nat × Timer α)) (k : Nat)
    (h : lookupKey l1 k = none) : lookupKey (l1 ++ l2) k = lookupKey l2 k := by
  induction l1 with
  | nil => rfl
  | cons p rest ih =>
    obtain ⟨k', tm⟩ := p
    have e1 : lookupKey ((k', tm) :: rest) k
        = if k' = k then some tm else lookupKey rest k := rfl
    rw [e1] at h
    by_cases hk : k' = k
    · rw [if_pos hk] at h
      exact absurd h (by simp)
    · rw [if_neg hk] at h
      have e2 : lookupKey (((k', tm) :: rest) ++ l2) k
          = if k' = k then some tm else lookupKey (rest ++ l2) k := rfl
      rw [e2, if_neg hk]
      exact ih h

/-- Helper: a key at least as large as every key of the list is absent. -/
theorem lookupKey_ge_none {α : Type} (l : List (Nat × Timer α)) (n : Nat)
    (h : ∀ p ∈ l, p.1 < n) : lookupKey l n = none := by
  induction l with
  | nil => rfl
  | cons p rest ih =>
    obtain ⟨k', tm⟩ := p
    have e1 : lookupKey ((k', tm) :: rest) n
        = if k' = n then some tm else lookupKey rest n := rfl
    rw [e1]
    have hk : k' ≠ n := Nat.ne_of_lt (h (k', tm) (List.mem_cons_self _ _))
    rw [if_neg hk]
    exact ih (fun p hp => h p (List.mem_cons_of_mem _ hp))

/-- Helper: overwriting `passed` of a freshly appended entry rewrites just
that entry. -/
theorem setPassed_append_fresh {α : Type} (l : List (Nat × Timer α)) (k : Nat)
    (tm : Timer α) (p : ℚ) (h : lookupKey l k = none) :
    setPassed (l ++ [(k, tm)]) k p = l ++ [(k, { tm with passed := p })] := by
  induction l with
  | nil =>
    have e1 : setPassed ([(k, tm)]) k p
        = if k = k then (k, { tm with passed := p }) :: [] else (k, tm) :: setPassed [] k p := rfl
    rw [List.nil_append, e1, if_pos rfl, List.nil_append]
  | cons q rest ih =>
    obtain ⟨k', tm'⟩ := q
    have e0 : lookupKey ((k', tm') :: rest) k
        = if k' = k then some tm' else lookupKey rest k := rfl
    rw [e0] at h
    by_cases hk : k' = k
    · rw [if_pos hk] at h
      exact absurd h (by simp)
    · rw [if_neg hk] at h
      have e1 : setPassed (((k', tm') :: rest) ++ [(k, tm)]) k p
          = if k' = k then (k', { tm' with passed := p }) :: (rest ++ [(k, tm)])
            else (k', tm') :: setPassed (rest ++ [(k, tm)]) k p := rfl
      rw [e1, if_neg hk, ih h]
      rfl

/-- Helper: `start_anim` creates one timer per keyframe. -/
theorem animEntries_length {α : Type} (total : ℚ) (repeats : Bool) :
    ∀ (kfs : List (Keyframe α)) (k : Nat) (running : ℚ),
      (animEntries total repeats kfs k running).length = kfs.length := by
  intro kfs
  induction kfs with
  | nil => intro k running; rfl
  | cons kf rest ih =>
    intro k running
    simp only [animEntries, List.length_cons, ih]

/-- Helper: cumulative delay of a cons, one keyframe deeper. -/
theorem animCsum_cons_succ {α : Type} (kf : Keyframe α) (rest : List (Keyframe α))
    (n : Nat) : animCsum (kf :: rest) (n + 1) = kf.delay + animCsum rest n := by
  simp [animCsum]

/-- Helper: the timer of keyframe `i` in the created block. -/
theorem animEntries_lookup {α : Type} (total : ℚ) (repeats : Bool) :
    ∀ (kfs : List (Keyframe α)) (k : Nat) (running : ℚ) (i : Nat) (h : i < kfs.length),
      lookupKey (animEntries total repeats kfs k running) (k + i)
        = some { passed := total - (running + animCsum kfs (i + 1)), expire := total,
                 repeats := repeats, function := (kfs.get ⟨i, h⟩).action,
                 completed := false } := by
  intro kfs
  induction kfs with
  | nil => intro k running i h; exact absurd h (by simp)
  | cons kf rest ih =>
    intro k running i h
    cases i with
    | zero =>
      have e1 : lookupKey (animEntries total repeats (kf :: rest) k running) (k + 0)
          = if k = k + 0
            then some { passed := total - (running + kf.delay), expire := total,
                        repeats := repeats, function := kf.action, completed := false }
            else lookupKey (animEntries total repeats rest (k + 1) (running + kf.delay))
              (k + 0) := rfl
      rw [e1, if_pos (by omega)]
      have e2 : animCsum (kf :: rest) (0 + 1) = kf.delay + animCsum rest 0 :=
        animCsum_cons_succ kf rest 0
      have e3 : animCsum rest 0 = 0 := by simp [animCsum]
      have e4 : total - (running + animCsum (kf :: rest) (0 + 1))
          = total - (running + kf.delay) := by
        rw [e2, e3]
        ring
      rw [e4]
      rfl
    | succ j =>
      have e1 : lookupKey (animEntries total repeats (kf :: rest) k running) (k + (j + 1))
          = if k = k + (j + 1)
            then some { passed := total - (running + kf.delay), expire := total,
                        repeats := repeats, function := kf.action, completed := false }
            else lookupKey (animEntries total repeats rest (k + 1) (running + kf.delay))
              (k + (j + 1)) := rfl
      rw [e1, if_neg (by omega)]
      have hj : j < rest.length := by
        have := h
        simp only [List.length_cons] at this
        omega
      have e2 : k + (j + 1) = (k + 1) + j := by omega
      rw [e2, ih (k + 1) (running + kf.delay) j hj]
      have e3 : total - (running + kf.delay + animCsum rest (j + 1))
          = total - (running + animCsum (kf :: rest) (j + 1 + 1)) := by
        rw [animCsum_cons_succ kf rest (j + 1)]
        ring
      rw [e3]
      rfl

/-- Helper: appending a fresh timer preserves registry well-formedness. -/
theorem GameWF_append {α : Type} (g : LaunchpadGame α) (tm : Timer α)
    (hWF : GameWF g) :
    GameWF ({ timers := g.timers ++ [(g.next_key, tm)], next_key := g.next_key + 1 } :
      LaunchpadGame α) := by
  intro p hp
  rcases List.mem_append.mp hp with h1 | h2
  · exact Nat.lt_trans (hWF p h1) (Nat.lt_succ_self _)
  · obtain rfl : p = (g.next_key, tm) := List.mem_singleton.mp h2
    exact Nat.lt_succ_self _

/-- Helper: closed form of the `start_anim` loop: it returns the
consecutive keys starting at the current fresh key and appends exactly
the `animEntries` block to the registry. -/
theorem start_anim_go_spec {α : Type} (total : ℚ) (repeats : Bool) :
    ∀ (kfs : List (Keyframe α)) (running : ℚ) (g : LaunchpadGame α), GameWF g →
      (start_anim_go total repeats kfs running g).1 = List.range' g.next_key kfs.length
      ∧ (start_anim_go total repeats kfs running g).2.timers
          = g.timers ++ animEntries total repeats kfs g.next_key running
      ∧ (start_anim_go total repeats kfs running g).2.next_key
          = g.next_key + kfs.length := by
  intro kfs
  induction kfs with
  | nil =>
    intro running g hWF
    exact ⟨rfl, by simp [start_anim_go, animEntries], by simp [start_anim_go]⟩
  | cons kf rest ih =>
    intro running g hWF
    have hfresh : lookupKey g.timers g.next_key = none :=
      lookupKey_ge_none g.timers g.next_key hWF
    have e2 : setPassed (g.timers ++ [(g.next_key, Timer.init total kf.action repeats)])
        g.next_key (total - (running + kf.delay))
        = g.timers ++ [(g.next_key,
            { passed := total - (running + kf.delay), expire := total, repeats := repeats,
              function := kf.action, completed := false })] :=
      setPassed_append_fresh g.timers g.next_key _ _ hfresh
    have estep : start_anim_go total repeats (kf :: rest) running g
        = (g.next_key :: (start_anim_go total repeats rest (running + kf.delay)
              (animStep g total (running + kf.delay) kf repeats)).1,
           (start_anim_go total repeats rest (running + kf.delay)
              (animStep g total (running + kf.delay) kf repeats)).2) := by
      simp only [start_anim_go, start_timer, animStep]
      rw [e2]
    have hWF2 : GameWF (animStep g total (running + kf.delay) kf repeats) :=
      GameWF_append g _ hWF
    obtain ⟨ih1, ih2, ih3⟩ := ih (running + kf.delay) _ hWF2
    refine ⟨?_, ?_, ?_⟩
    · rw [estep]
      rw [ih1]
      dsimp only [animStep]
      rfl
    · rw [estep]
      rw [ih2]
      have e3 : animEntries total repeats (kf :: rest) g.next_key running
          = (g.next_key,
              { passed := total - (running + kf.delay), expire := total,
                repeats := repeats, function := kf.action, completed := false })
            :: animEntries total repeats rest (g.next_key + 1) (running + kf.delay) := rfl
      rw [e3]
      dsimp only [animStep]
      rw [List.append_assoc]
      rfl
    · rw [estep]
      rw [ih3]
      dsimp only [animStep]
      simp only [List.length_cons]
      omega

/-- C3: `start_anim` registers exactly one timer per keyframe, each with
period `expire = total` (the sum of all delays), initial elapsed
`passed = total - c_i` (where `c_i` is the cumulative delay through
keyframe `i`), the shared repeat flag and the keyframe's action, and it
returns the fresh keys of all created timers in keyframe order. -/
theorem start_anim_spec {α : Type} (g : LaunchpadGame α) (kfs : List (Keyframe α))
    (repeats : Bool) (hWF : GameWF g) :
    (start_anim g kfs repeats).1 = List.range' g.next_key kfs.length
    ∧ (start_anim g kfs repeats).2.timers.length = g.timers.length + kfs.length
    ∧ ∀ (i : Nat) (h : i < kfs.length),
        lookupKey (start_anim g kfs repeats).2.timers (g.next_key + i)
          = some { passed := animTotal kfs - animCsum kfs (i + 1),
                   expire := animTotal kfs, repeats := repeats,
                   function := (kfs.get ⟨i, h⟩).action, completed := false } := by
  obtain ⟨h1, h2, h3⟩ := start_anim_go_spec (animTotal kfs) repeats kfs 0 g hWF
  refine ⟨h1, ?_, ?_⟩
  · show (start_anim g kfs repeats).2.timers.length = g.timers.length + kfs.length
    rw [show (start_anim g kfs repeats).2.timers
          = g.timers ++ animEntries (animTotal kfs) repeats kfs g.next_key 0 from h2]
    rw [List.length_append, animEntries_length]
  · intro i hi
    rw [show (start_anim g kfs repeats).2.timers
          = g.timers ++ animEntries (animTotal kfs) repeats kfs g.next_key 0 from h2]
    have hfresh : lookupKey g.timers (g.next_key + i) = none :=
      lookupKey_ge_none g.timers (g.next_key + i)
        (fun p hp => Nat.lt_of_lt_of_le (hWF p hp) (Nat.le_add_right _ _))
    rw [lookupKey_append_left_none _ _ _ hfresh]
    rw [animEntries_lookup (animTotal kfs) repeats kfs g.next_key 0 i hi]
    have e1 : animTotal kfs - (0 + animCsum kfs (i + 1))
        = animTotal kfs - animCsum kfs (i + 1) := by ring
    rw [e1]

theorem start_anim_spec_witness :
    GameWF ({ timers := [], next_key := 0 } : LaunchpadGame GAction)
    ∧ (start_anim ({ timers := [], next_key := 0 } : LaunchpadGame GAction)
        [⟨GAction.noop, 1⟩, ⟨GAction.stop 0, 2⟩] false).1 = List.range' 0 2
    ∧ lookupKey (start_anim ({ timers := [], next_key := 0 } : LaunchpadGame GAction)
        [⟨GAction.noop, 1⟩, ⟨GAction.stop 0, 2⟩] false).2.timers (0 + 1)
        = some { passed := animTotal [⟨GAction.noop, 1⟩, (⟨GAction.stop 0, 2⟩ : Keyframe GAction)]
                   - animCsum [⟨GAction.noop, 1⟩, ⟨GAction.stop 0, 2⟩] 2,
                 expire := animTotal [⟨GAction.noop, 1⟩, ⟨GAction.stop 0, 2⟩],
                 repeats := false,
                 function := GAction.stop 0, completed := false } :=
  ⟨by decide,
   (start_anim_spec ({ timers := [], next_key := 0 } : LaunchpadGame GAction)
     [⟨GAction.noop, 1⟩, ⟨GAction.stop 0, 2⟩] false (by decide)).1,
   (start_anim_spec ({ timers := [], next_key := 0 } : LaunchpadGame GAction)
     [⟨GAction.noop, 1⟩, ⟨GAction.stop 0, 2⟩] false (by decide)).2.2 1 (by decide)⟩

end LaunchpadGames

